import Mathlib

/-!
Verification of AmirDelhi/Amir-Automator against its specification.

The Python sources (src/main.py, src/databse.py) are shallowly embedded:
strings are lists of characters, the sqlite tables are lists of rows in
insertion order, and external effects (random salt bytes, the sha256
hexdigest primitive, outgoing HTTP calls, database insert outcomes) are
explicit parameters, so that every definition is executable.
-/

namespace AmirAutomator

/-- Lowercase hex alphabet used by Python secrets.token_hex. -/
def hexDigits : List Char := "0123456789abcdef".toList

/-- The hex character of a nibble. -/
def hexDigit (n : Nat) : Char := hexDigits.getD (n % 16) '0'

/-- Models Python secrets.token_hex: each byte is rendered as two lowercase
hex characters.  The random bytes are an explicit parameter; in
hash_password the source draws 16 of them (token_hex(16)). -/
def token_hex (bytes : List Nat) : List Char :=
  bytes.flatMap (fun b => [hexDigit ((b % 256) / 16), hexDigit (b % 16)])

/-- Embeds hash_password, src/databse.py lines 16-19:
salt = secrets.token_hex(16); return salt, a dollar separator, then
sha256((salt + password).encode()).hexdigest().  The salt bytes and the
sha256 hexdigest primitive (a stdlib function) are explicit parameters. -/
def hash_password (sha256hex : List Char → List Char) (salt_bytes : List Nat)
    (password : List Char) : List Char :=
  token_hex salt_bytes ++ '$' :: sha256hex (token_hex salt_bytes ++ password)

/-- Models Python s.split(sep, 1): splits at the first occurrence of sep,
returning none when sep does not occur in the list. -/
def splitOnce (sep : Char) : List Char → Option (List Char × List Char)
  | [] => none
  | c :: cs =>
    if c = sep then some ([], cs)
    else (splitOnce sep cs).map (fun p => (c :: p.1, p.2))

/-- Embeds verify_password, src/databse.py lines 21-27.  stored_hash is an
Option: none models Python None.  The source guard (falsy stored_hash, or
no dollar separator) returns false; the empty string is falsy and also has
no separator, so both guards collapse into the splitOnce none case. -/
def verify_password (sha256hex : List Char → List Char)
    (stored_hash : Option (List Char)) (provided_password : List Char) : Bool :=
  match stored_hash with
  | none => false
  | some s =>
    match splitOnce '$' s with
    | none => false
    | some (salt, stored_hashed) =>
      sha256hex (salt ++ provided_password) == stored_hashed

/-- A row of the users table (src/databse.py schema lines 60-66). -/
structure UserRow where
  email : List Char
  name : List Char
  password_hash : List Char
deriving DecidableEq

/-- Embeds create_user, src/databse.py lines 93-105, together with the
sqlite UNIQUE constraint on users.email (schema line 62): the INSERT raises
IntegrityError exactly when a row with the same email already exists, the
except branch returns False and leaves the table unchanged; otherwise the
complete new row is appended and True is returned.  The users table is
modelled as its list of rows in insertion order. -/
def create_user (sha256hex : List Char → List Char) (salt_bytes : List Nat)
    (users : List UserRow) (email nm password : List Char) :
    Bool × List UserRow :=
  if users.any (fun u => u.email == email) then (false, users)
  else (true, users ++ [⟨email, nm, hash_password sha256hex salt_bytes password⟩])

-- JSON values as produced by Python json.loads.  Numbers keep their source
-- lexeme, which is what the embedding needs (the interpreter only ever
-- re-renders them).

/-- A JSON value; num carries the numeric literal as written. -/
inductive Json where
  | null
  | bool (b : Bool)
  | num (lit : List Char)
  | str (s : List Char)
  | arr (elems : List Json)
  | obj (fields : List (List Char × Json))

/-- True exactly on JSON arrays. -/
def Json.isArr : Json → Bool
  | .arr _ => true
  | _ => false

/-- True exactly on JSON objects. -/
def Json.isObj : Json → Bool
  | .obj _ => true
  | _ => false

/-- JSON whitespace. -/
def jsonWs (c : Char) : Bool := c == ' ' || c == '\t' || c == '\n' || c == '\r'

/-- Drop leading JSON whitespace. -/
def skipWs (cs : List Char) : List Char := cs.dropWhile jsonWs

/-- The opening curly brace character. -/
def chLBrace : Char := Char.ofNat 123

/-- The closing curly brace character. -/
def chRBrace : Char := Char.ofNat 125

/-- The simple JSON backslash escapes. -/
def escChar (e : Char) : Option Char :=
  if e = '"' then some '"'
  else if e = '\\' then some '\\'
  else if e = '/' then some '/'
  else if e = 'b' then some (Char.ofNat 8)
  else if e = 'f' then some (Char.ofNat 12)
  else if e = 'n' then some '\n'
  else if e = 'r' then some '\r'
  else if e = 't' then some '\t'
  else none

/-- Body of a JSON string literal after the opening quote: characters up to
the closing quote, with backslash escapes resolved. -/
def parseStrBody : Nat → List Char → Option (List Char × List Char)
  | 0, _ => none
  | fuel + 1, cs =>
    match cs with
    | [] => none
    | c :: rest =>
      if c = '"' then some ([], rest)
      else if c = '\\' then
        match rest with
        | e :: r2 =>
          match escChar e with
          | none => none
          | some ec => (parseStrBody fuel r2).map (fun p => (ec :: p.1, p.2))
        | [] => none
      else (parseStrBody fuel rest).map (fun p => (c :: p.1, p.2))

/-- One or more decimal digits. -/
def parseDigits (cs : List Char) : Option (List Char × List Char) :=
  let ds := cs.takeWhile Char.isDigit
  if ds.isEmpty then none else some (ds, cs.drop ds.length)

/-- Integer part of a JSON number: a single zero, or a nonzero digit
followed by digits. -/
def parseIntPart (cs : List Char) : Option (List Char × List Char) :=
  match cs with
  | [] => none
  | c :: rest =>
    if c = '0' then some ([c], rest)
    else if c.isDigit then
      let ds := rest.takeWhile Char.isDigit
      some (c :: ds, rest.drop ds.length)
    else none

/-- Optional fraction part; a lone dot is left unconsumed (the overall
parse then fails on the leftover, as json.loads does). -/
def parseFrac (cs : List Char) : List Char × List Char :=
  match cs with
  | '.' :: rest =>
    (match parseDigits rest with
     | some (ds, r) => ('.' :: ds, r)
     | none => ([], cs))
  | _ => ([], cs)

/-- Optional exponent part, same leftover convention as parseFrac. -/
def parseExp (cs : List Char) : List Char × List Char :=
  match cs with
  | [] => ([], cs)
  | c :: rest =>
    if c = 'e' ∨ c = 'E' then
      match rest with
      | [] => ([], cs)
      | s :: r2 =>
        if s = '+' ∨ s = '-' then
          match parseDigits r2 with
          | some (ds, r3) => (c :: s :: ds, r3)
          | none => ([], cs)
        else
          match parseDigits rest with
          | some (ds, r3) => (c :: ds, r3)
          | none => ([], cs)
    else ([], cs)

/-- A JSON number literal, kept as its lexeme. -/
def parseNum (cs : List Char) : Option (Json × List Char) :=
  let (neg, cs1) :=
    match cs with
    | '-' :: rest => (['-'], rest)
    | _ => ([], cs)
  match parseIntPart cs1 with
  | none => none
  | some (ip, r1) =>
    let (fp, r2) := parseFrac r1
    let (ep, r3) := parseExp r2
    some (Json.num (neg ++ ip ++ fp ++ ep), r3)

mutual

/-- Recursive-descent parser for one JSON value; fuel bounds the recursion
depth.  Together with json_loads this models Python json.loads (strings
are limited to the simple backslash escapes: the unicode escape form and
the rejection of raw control characters are outside the modelled subset). -/
def parseVal : Nat → List Char → Option (Json × List Char)
  | 0, _ => none
  | fuel + 1, cs =>
    match skipWs cs with
    | [] => none
    | c :: rest =>
      if c = 'n' then
        match rest with
        | 'u' :: 'l' :: 'l' :: r => some (Json.null, r)
        | _ => none
      else if c = 't' then
        match rest with
        | 'r' :: 'u' :: 'e' :: r => some (Json.bool true, r)
        | _ => none
      else if c = 'f' then
        match rest with
        | 'a' :: 'l' :: 's' :: 'e' :: r => some (Json.bool false, r)
        | _ => none
      else if c = '"' then
        (parseStrBody (rest.length + 1) rest).map (fun p => (Json.str p.1, p.2))
      else if c = '[' then
        match skipWs rest with
        | ']' :: r2 => some (Json.arr [], r2)
        | cs2 => (parseItems fuel cs2).map (fun p => (Json.arr p.1, p.2))
      else if c = chLBrace then
        match skipWs rest with
        | [] => none
        | c2 :: r2 =>
          if c2 = chRBrace then some (Json.obj [], r2)
          else (parseFields fuel (c2 :: r2)).map (fun p => (Json.obj p.1, p.2))
      else parseNum (c :: rest)

/-- Array elements: value (comma value)* closing bracket. -/
def parseItems : Nat → List Char → Option (List Json × List Char)
  | 0, _ => none
  | fuel + 1, cs =>
    match parseVal fuel cs with
    | none => none
    | some (v, r) =>
      match skipWs r with
      | ',' :: r2 => (parseItems fuel r2).map (fun p => (v :: p.1, p.2))
      | ']' :: r2 => some ([v], r2)
      | _ => none

/-- Object members: key colon value (comma member)* closing brace. -/
def parseFields : Nat → List Char → Option (List (List Char × Json) × List Char)
  | 0, _ => none
  | fuel + 1, cs =>
    match skipWs cs with
    | [] => none
    | c :: rest =>
      if c = '"' then
        match parseStrBody (rest.length + 1) rest with
        | none => none
        | some (k, r) =>
          match skipWs r with
          | ':' :: r2 =>
            (match parseVal fuel r2 with
             | none => none
             | some (v, r3) =>
               match skipWs r3 with
               | [] => none
               | c4 :: r4 =>
                 if c4 = ',' then
                   (parseFields fuel r4).map (fun p => ((k, v) :: p.1, p.2))
                 else if c4 = chRBrace then some ([(k, v)], r4)
                 else none)
          | _ => none
      else none

end

/-- Models Python json.loads: parses one JSON value and requires the rest
of the input to be whitespace; none models a raised JSONDecodeError. -/
def json_loads (text : List Char) : Option Json :=
  match parseVal (2 * text.length + 2) text with
  | some (v, rest) => if (skipWs rest).isEmpty then some v else none
  | none => none

/-- A row of the workflows table (src/main.py schema lines 66-69). -/
structure WorkflowRow where
  name : List Char
  description : List Char
  steps_json : List Char
deriving DecidableEq

/-- Embeds the POST branch of the workflows route, src/main.py lines
371-383: the form field steps_json is handed to json.loads; on success the
raw text is inserted as a new workflows row and creation succeeds; any
exception from json.loads is caught and shown as an error message, with no
write.  Returns the updated table and whether creation succeeded. -/
def workflows_post (table : List WorkflowRow) (nm desc steps_json : List Char) :
    List WorkflowRow × Bool :=
  match json_loads steps_json with
  | some _ => (table ++ [⟨nm, desc, steps_json⟩], true)
  | none => (table, false)

-- Rendering helpers for the f-strings and exception texts of the
-- interpreter.

/-- The apostrophe character (used by Python repr and exception texts). -/
def quoteCh : Char := Char.ofNat 39

mutual

/-- Python repr of a json.loads value. -/
def pyRepr : Json → List Char
  | .null => "None".toList
  | .bool true => "True".toList
  | .bool false => "False".toList
  | .num l => l
  | .str s => quoteCh :: s ++ [quoteCh]
  | .arr xs => '[' :: pyReprList xs ++ [']']
  | .obj kvs => chLBrace :: pyReprFields kvs ++ [chRBrace]

/-- Comma-space separated reprs of list elements. -/
def pyReprList : List Json → List Char
  | [] => []
  | [x] => pyRepr x
  | x :: xs => pyRepr x ++ ',' :: ' ' :: pyReprList xs

/-- Comma-space separated key-value reprs of dict members. -/
def pyReprFields : List (List Char × Json) → List Char
  | [] => []
  | [(k, v)] => quoteCh :: k ++ quoteCh :: ':' :: ' ' :: pyRepr v
  | (k, v) :: kvs =>
    quoteCh :: k ++ quoteCh :: ':' :: ' ' :: pyRepr v ++ ',' :: ' ' :: pyReprFields kvs

end

/-- Python str() of a json.loads value, as interpolated by the f-strings
in the source: a string renders as itself, everything else as its repr. -/
def pyStr (v : Json) : List Char :=
  match v with
  | .str s => s
  | _ => pyRepr v

/-- The Python type name of a json.loads value. -/
def pyTypeName : Json → List Char
  | .null => "NoneType".toList
  | .bool _ => "bool".toList
  | .num _ => "int".toList
  | .str _ => "str".toList
  | .arr _ => "list".toList
  | .obj _ => "dict".toList

/-- str() of the KeyError raised by a missing dict key: the key in
apostrophes. -/
def keyErrMsg (k : List Char) : List Char := quoteCh :: k ++ [quoteCh]

/-- str() of the AttributeError raised by step.get on a non-dict value. -/
def attrErrMsg (v : Json) : List Char :=
  quoteCh :: pyTypeName v ++ quoteCh :: " object has no attribute ".toList ++
    quoteCh :: "get".toList ++ [quoteCh]

/-- Decimal rendering of an integer, as Python str(). -/
def intToChars (n : Int) : List Char := (toString n).toList

/-- Python dict lookup on an object built by json.loads (duplicate keys
keep the last occurrence, as json.loads does). -/
def objGet? (kvs : List (List Char × Json)) (k : List Char) : Option Json :=
  (kvs.reverse.find? (fun kv => kv.1 == k)).map (fun kv => kv.2)

/-- Python dict.get with a default. -/
def objGetD (kvs : List (List Char × Json)) (k : List Char) (d : Json) : Json :=
  (objGet? kvs k).getD d

/-- Does the Python equality test value == some string literal succeed for
this json.loads value? -/
def Json.eqStr : Json → List Char → Bool
  | .str u, s => u == s
  | _, _ => false

-- The AI helper and the workflow interpreter.

/-- The AI environment configuration, src/main.py lines 33-34. -/
structure Config where
  AI_BASE_URL : List Char
  AI_API_KEY : List Char

/-- The truthiness test on src/main.py line 103: both env vars nonempty. -/
def Config.aiConfigured (cfg : Config) : Bool :=
  !cfg.AI_BASE_URL.isEmpty && !cfg.AI_API_KEY.isEmpty

/-- An HTTP response as the interpreter consumes it. -/
structure HttpResp where
  status_code : Int
  text : List Char

/-- The outside world seen by one step execution: the outcome of the
outgoing requests.post call of that step (used by the http_post and
webhook_trigger kinds), the outcome of the configured AI call chain
(request, raise_for_status, json decoding and indexing down to the message
content), and the outcome of the sqlite insert of save_to_db.  An error
carries str(e) of the raised exception. -/
structure StepEnv where
  httpPost : Except (List Char) HttpResp
  aiCall : Except (List Char) (List Char)
  dbInsert : Except (List Char) Unit

/-- Python slicing and rendering of user_prompt sliced to 80 inside the
demo branch of ai_generate: a string is cut to its first 80 characters; a
list is cut to its first 80 elements and rendered as its repr by the
f-string; the remaining json.loads values raise a TypeError whose str()
is the CPython message. -/
def sliceRender80 : Json → Except (List Char) (List Char)
  | .str p => .ok (p.take 80)
  | .arr xs => .ok (pyRepr (Json.arr (xs.take 80)))
  | .obj _ => .error ("unhashable type: ".toList ++ quoteCh :: "slice".toList ++ [quoteCh])
  | .null => .error (quoteCh :: "NoneType".toList ++ quoteCh :: " object is not subscriptable".toList)
  | .bool _ => .error (quoteCh :: "bool".toList ++ quoteCh :: " object is not subscriptable".toList)
  | .num _ => .error (quoteCh :: "int".toList ++ quoteCh :: " object is not subscriptable".toList)

/-- Embeds ai_generate, src/main.py lines 99-124.  With both AI env vars
set it performs the HTTP call chain, whose outcome is env-provided, and
catches every exception from it, returning a bracketed AI error string;
otherwise it returns the demo string built from both prompts.  The result
is an Except because the demo branch itself can raise a TypeError on a
non-sliceable user_prompt, which ai_generate does not catch. -/
def ai_generate (cfg : Config) (aiCall : Except (List Char) (List Char))
    (system_prompt : List Char) (user_prompt : Json) :
    Except (List Char) (List Char) :=
  if cfg.aiConfigured then
    match aiCall with
    | .ok content => .ok content
    | .error e => .ok ("[AI Error: ".toList ++ e ++ "]".toList)
  else
    match sliceRender80 user_prompt with
    | .ok p80 =>
      .ok ("[AI DEMO] ".toList ++ system_prompt ++ " | ".toList ++ p80 ++ "...".toList)
    | .error e => .error e

/-- One entry of the results list built by workflow_run, src/main.py line
436: the 1-based step index, the declared type (step.get, so none models
Python None when the key is absent), and the result and error fields that
start out null. -/
structure StepResult where
  step : Nat
  type : Option Json
  result : Option Json
  error : Option (List Char)

/-- Embeds the body of the per-step try block, src/main.py lines 438-458,
for a step that is a JSON object: ok is the value assigned to the result
field, error is either str() of the exception the block raises (KeyError
for a missing url or type key, an env-provided failure, the TypeError of
the demo branch) or the unknown-step-type message, which the source
assigns to the error field directly.  The row that save_to_db inserts
into its target table is outside the modelled state; env.dbInsert carries
the outcome of that insert. -/
def step_dispatch (cfg : Config) (env : StepEnv)
    (kvs : List (List Char × Json)) : Option Json → Except (List Char) Json
  | none => .error (keyErrMsg "type".toList)
  | some t =>
    if t.eqStr "http_post".toList then
      match objGet? kvs "url".toList with
      | none => .error (keyErrMsg "url".toList)
      | some _ =>
        match env.httpPost with
        | .error e => .error e
        | .ok resp =>
          .ok (Json.obj [("status".toList, Json.num (intToChars resp.status_code)),
                         ("text".toList, Json.str (resp.text.take 300))])
    else if t.eqStr "ai_generate".toList then
      match ai_generate cfg env.aiCall "You are a helpful assistant".toList
          (objGetD kvs "prompt".toList (Json.str [])) with
      | .ok content => .ok (Json.str content)
      | .error e => .error e
    else if t.eqStr "save_to_db".toList then
      match env.dbInsert with
      | .error e => .error e
      | .ok _ =>
        .ok (Json.str ("Saved to ".toList ++
          pyStr (objGetD kvs "table".toList (Json.str "steps".toList)) ++ ".".toList))
    else if t.eqStr "webhook_trigger".toList then
      match objGet? kvs "url".toList with
      | none => .error (keyErrMsg "url".toList)
      | some _ =>
        match env.httpPost with
        | .error e => .error e
        | .ok resp => .ok (Json.str ("Webhook status ".toList ++ intToChars resp.status_code))
    else .error "Unknown step type".toList

/-- The try block body as a function of the step object alone: dispatch on
the declared type read with step.get. -/
def run_step_body (cfg : Config) (env : StepEnv)
    (kvs : List (List Char × Json)) : Except (List Char) Json :=
  step_dispatch cfg env kvs (objGet? kvs "type".toList)

/-- Embeds one iteration of the run loop, src/main.py lines 435-461, at
0-based index i: for a step that is a JSON object the header record is
built and the try block runs with its exception, if any, caught into the
error field; a step that is not an object raises AttributeError at the
header line step.get, outside the try, which escapes the loop. -/
def exec_step (cfg : Config) (env : StepEnv) (i : Nat) (step : Json) :
    Except (List Char) StepResult :=
  match step with
  | Json.obj kvs =>
    match run_step_body cfg env kvs with
    | .ok res => .ok ⟨i + 1, objGet? kvs "type".toList, some res, none⟩
    | .error e => .ok ⟨i + 1, objGet? kvs "type".toList, none, some e⟩
  | other => .error (attrErrMsg other)

/-- Runs the step list from 0-based index i, threading the per-step
environments; an uncaught exception aborts the remainder of the loop. -/
def run_steps_from (cfg : Config) (envs : Nat → StepEnv) (i : Nat) :
    List Json → Except (List Char) (List StepResult)
  | [] => .ok []
  | s :: rest =>
    match exec_step cfg (envs i) i s with
    | .error e => .error e
    | .ok r => (run_steps_from cfg envs (i + 1) rest).map (fun rs => r :: rs)

/-- Embeds the POST branch of workflow_run, src/main.py lines 426-463, for
an existing workflow row: json.loads of the stored steps text (line 432;
failure is an uncaught exception), the per-step loop, then one new
workflow_logs row holding the full ordered results list.  When the parsed
value is not a list the source iterates it: an empty dict or empty string
gives an empty loop and an empty logged results list; a nonempty dict or
string reaches step.get on a str element and aborts; the remaining values
are not iterable and raise a TypeError.  Ok carries the results list and
the updated workflow_logs table; error carries the uncaught exception
text, with no log row written. -/
def workflow_run_post (cfg : Config) (envs : Nat → StepEnv)
    (logs : List (List StepResult)) (steps_json : List Char) :
    Except (List Char) (List StepResult × List (List StepResult)) :=
  match json_loads steps_json with
  | none => .error "JSONDecodeError".toList
  | some (Json.arr steps) =>
    match run_steps_from cfg envs 0 steps with
    | .error e => .error e
    | .ok results => .ok (results, logs ++ [results])
  | some (Json.obj []) => .ok ([], logs ++ [[]])
  | some (Json.str []) => .ok ([], logs ++ [[]])
  | some (Json.obj (k :: _)) => .error (attrErrMsg (Json.str k.1))
  | some (Json.str (c :: _)) => .error (attrErrMsg (Json.str [c]))
  | some other => .error (quoteCh :: pyTypeName other ++ quoteCh :: " object is not iterable".toList)

/-- A concrete unconfigured AI configuration, for witnesses. -/
def cfg0 : Config := ⟨[], []⟩

/-- A concrete configured AI configuration, for witnesses. -/
def cfg1 : Config := ⟨"https://ai.example".toList, "key".toList⟩

/-- A concrete step environment: outgoing calls fail, db inserts succeed. -/
def env0 : StepEnv :=
  ⟨Except.error "connection refused".toList, Except.error "boom".toList, Except.ok ()⟩

/-- The constant step environment family built from env0. -/
def envs0 : Nat → StepEnv := fun _ => env0

-- Helper lemmas about hex salts and splitOnce.

theorem hexDigit_ne_dollar (n : Nat) : hexDigit n ≠ '$' := by
  have h : n % 16 < 16 := Nat.mod_lt _ (by decide)
  unfold hexDigit
  interval_cases h : n % 16 <;> decide

theorem token_hex_no_dollar (bytes : List Nat) : '$' ∉ token_hex bytes := by
  intro hmem
  unfold token_hex at hmem
  rw [List.mem_flatMap] at hmem
  obtain ⟨b, _, hc⟩ := hmem
  simp only [List.mem_cons, List.mem_singleton] at hc
  rcases hc with h | h | h
  · exact hexDigit_ne_dollar _ h.symm
  · exact hexDigit_ne_dollar _ h.symm
  · exact List.not_mem_nil _ h

theorem splitOnce_append (sep : Char) (xs ys : List Char) (h : sep ∉ xs) :
    splitOnce sep (xs ++ sep :: ys) = some (xs, ys) := by
  induction xs with
  | nil => simp [splitOnce]
  | cons c cs ih =>
    have hc : c ≠ sep := fun hcs => h (hcs ▸ List.mem_cons_self c cs)
    have hcs : sep ∉ cs := fun hm => h (List.mem_cons_of_mem _ hm)
    simp [splitOnce, hc, ih hcs]

theorem splitOnce_eq_none (sep : Char) (xs : List Char) (h : sep ∉ xs) :
    splitOnce sep xs = none := by
  induction xs with
  | nil => rfl
  | cons c cs ih =>
    have hc : c ≠ sep := fun hcs => h (hcs ▸ List.mem_cons_self c cs)
    have hcs : sep ∉ cs := fun hm => h (List.mem_cons_of_mem _ hm)
    simp [splitOnce, hc, ih hcs]

/-- C4: for every password p (and every choice of random salt bytes and
every sha256 primitive), verify(hash(p), p) returns true: hash produces
salt, separator, digest with the given fresh salt, and verify recovers the
salt (hex, hence free of the separator), recomputes the digest and
compares it successfully to the stored digest. -/
theorem verify_password_of_hash_password (sha256hex : List Char → List Char)
    (salt_bytes : List Nat) (p : List Char) :
    verify_password sha256hex (some (hash_password sha256hex salt_bytes p)) p = true := by
  have hsplit := splitOnce_append '$' (token_hex salt_bytes)
    (sha256hex (token_hex salt_bytes ++ p)) (token_hex_no_dollar salt_bytes)
  simp [verify_password, hash_password, hsplit]

/-- C5: for every malformed stored hash (None, the empty string, or any
string with no dollar separator), verify_password returns false for every
candidate password; the embedded function is total, so no exception is
possible. -/
theorem verify_password_malformed_false (sha256hex : List Char → List Char)
    (stored : Option (List Char)) (p : List Char)
    (h : ∀ s, stored = some s → '$' ∉ s) :
    verify_password sha256hex stored p = false := by
  cases stored with
  | none => rfl
  | some s =>
    simp [verify_password, splitOnce_eq_none '$' s (h s rfl)]

/-- Witness for C5: concrete malformed hashes (no separator, None, empty
string) all verify to false. -/
theorem verify_password_malformed_false_witness :
    verify_password id (some "deadbeef".toList) "pw".toList = false ∧
    verify_password id none "pw".toList = false ∧
    verify_password id (some []) "pw".toList = false :=
  ⟨verify_password_malformed_false id _ _ (by decide),
   verify_password_malformed_false id _ _ (by intro s hs; cases hs),
   verify_password_malformed_false id _ _ (by decide)⟩

/-- C9: create_user succeeds and appends the complete new row when no user
with the given email exists; when a row with that email exists (the sqlite
UNIQUE constraint fires), it returns False without raising and leaves the
whole table, in particular the existing row, unchanged. -/
theorem create_user_unique_email (sha256hex : List Char → List Char)
    (salt_bytes : List Nat) (users : List UserRow) (email nm pw : List Char) :
    ((∀ u ∈ users, u.email ≠ email) →
      create_user sha256hex salt_bytes users email nm pw =
        (true, users ++ [⟨email, nm, hash_password sha256hex salt_bytes pw⟩])) ∧
    ((∃ u ∈ users, u.email = email) →
      create_user sha256hex salt_bytes users email nm pw = (false, users)) := by
  constructor
  · intro h
    unfold create_user
    have hany : users.any (fun u => u.email == email) = false := by
      rw [List.any_eq_false]
      intro u hu
      simpa using h u hu
    rw [hany]
    simp
  · intro h
    unfold create_user
    have hany : users.any (fun u => u.email == email) = true := by
      rw [List.any_eq_true]
      obtain ⟨u, hu, he⟩ := h
      exact ⟨u, hu, by simpa using he⟩
    rw [hany]
    simp

/-- Witness for C9: creating a user on an empty table succeeds; creating a
second user with the same email fails with False and leaves the first row
unchanged. -/
theorem create_user_unique_email_witness :
    create_user id [] [] "a@x.com".toList "A".toList "pw".toList =
      (true, [⟨"a@x.com".toList, "A".toList,
        hash_password id [] "pw".toList⟩]) ∧
    create_user id [] [⟨"a@x.com".toList, "A".toList, "h".toList⟩]
        "a@x.com".toList "B".toList "pw2".toList =
      (false, [⟨"a@x.com".toList, "A".toList, "h".toList⟩]) := by
  constructor
  · exact (create_user_unique_email id [] [] _ _ _).1 (by decide)
  · exact (create_user_unique_email id []
      [⟨"a@x.com".toList, "A".toList, "h".toList⟩] _ _ _).2
      ⟨_, List.mem_singleton_self _, rfl⟩

/-- C6 counterexample: the creation input 5 parses as the JSON number 5,
not as a JSON array, yet the workflows handler persists a row for it: the
handler only checks that json.loads succeeds, never that the parsed value
is an array. -/
theorem workflows_post_persists_non_array :
    json_loads "5".toList = some (Json.num "5".toList) ∧
    (Json.num "5".toList).isArr = false ∧
    workflows_post [] "n".toList "d".toList "5".toList =
      ([⟨"n".toList, "d".toList, "5".toList⟩], true) :=
  ⟨rfl, rfl, rfl⟩

/-- C6 amended: workflow creation persists a row exactly when the steps
text parses as some JSON value, array or not; when json.loads fails the
handler reports a validation error before any write, leaving the workflow
table unchanged. -/
theorem workflows_post_validates_json_only (table : List WorkflowRow)
    (nm desc steps_json : List Char) :
    ((workflows_post table nm desc steps_json).2 = (json_loads steps_json).isSome) ∧
    ((json_loads steps_json).isNone = true →
      workflows_post table nm desc steps_json = (table, false)) ∧
    ((json_loads steps_json).isSome = true →
      workflows_post table nm desc steps_json =
        (table ++ [⟨nm, desc, steps_json⟩], true)) := by
  rcases h : json_loads steps_json with _ | v <;> simp [workflows_post, h]

/-- Witness for C6 amended: an unterminated array literal is rejected with
no write; a well-formed empty array is persisted. -/
theorem workflows_post_validates_json_only_witness :
    workflows_post [] "n".toList "d".toList "[".toList = ([], false) ∧
    workflows_post [] "n".toList "d".toList "[]".toList =
      ([⟨"n".toList, "d".toList, "[]".toList⟩], true) :=
  ⟨(workflows_post_validates_json_only [] _ _ _).2.1 rfl,
   (workflows_post_validates_json_only [] _ _ _).2.2 rfl⟩

-- Helper lemmas about the interpreter.

theorem eqStr_false_of_ne (t : Json) (s : List Char)
    (h : ∀ u, t = Json.str u → u ≠ s) : t.eqStr s = false := by
  cases t <;> simp [Json.eqStr]
  intro hu
  exact absurd hu (h _ rfl)

theorem exec_step_obj_ok (cfg : Config) (env : StepEnv) (i : Nat)
    (kvs : List (List Char × Json)) :
    ∃ r, exec_step cfg env i (Json.obj kvs) = .ok r ∧ r.step = i + 1 := by
  rcases hb : run_step_body cfg env kvs with e | res
  · refine ⟨⟨i + 1, objGet? kvs "type".toList, none, some e⟩, ?_, rfl⟩
    simp only [exec_step]
    rw [hb]
  · refine ⟨⟨i + 1, objGet? kvs "type".toList, some res, none⟩, ?_, rfl⟩
    simp only [exec_step]
    rw [hb]

theorem exec_step_ok_step (cfg : Config) (env : StepEnv) (i : Nat) (s : Json)
    (r : StepResult) (h : exec_step cfg env i s = .ok r) : r.step = i + 1 := by
  cases s with
  | null => exact Except.noConfusion h
  | bool b => exact Except.noConfusion h
  | num l => exact Except.noConfusion h
  | str u => exact Except.noConfusion h
  | arr xs => exact Except.noConfusion h
  | obj kvs =>
    simp only [exec_step] at h
    rcases hb : run_step_body cfg env kvs with e | res <;> rw [hb] at h <;>
      cases h <;> rfl

theorem run_steps_from_objs (cfg : Config) (envs : Nat → StepEnv)
    (steps : List Json) : ∀ i : Nat, (∀ s ∈ steps, s.isObj = true) →
    ∃ rs, run_steps_from cfg envs i steps = .ok rs ∧
      rs.length = steps.length ∧
      ∀ j s, steps[j]? = some s →
        ∃ r, rs[j]? = some r ∧ exec_step cfg (envs (i + j)) (i + j) s = .ok r := by
  induction steps with
  | nil =>
    intro i _
    exact ⟨[], rfl, rfl, fun j s hj => by simp at hj⟩
  | cons s rest ih =>
    intro i h
    have hs : s.isObj = true := h s (List.mem_cons_self s rest)
    have hrest : ∀ x ∈ rest, x.isObj = true :=
      fun x hx => h x (List.mem_cons_of_mem _ hx)
    obtain ⟨rs, hrun, hlen, hcorr⟩ := ih (i + 1) hrest
    obtain ⟨r, hr, _⟩ : ∃ r, exec_step cfg (envs i) i s = .ok r ∧ r.step = i + 1 := by
      cases s <;> simp [Json.isObj] at hs
      exact exec_step_obj_ok cfg (envs i) i _
    refine ⟨r :: rs, ?_, by simp [hlen], ?_⟩
    · simp only [run_steps_from]
      rw [hr, hrun]
      rfl
    · intro j t hj
      cases j with
      | zero =>
        simp only [List.getElem?_cons_zero, Option.some.injEq] at hj
        subst hj
        exact ⟨r, by simp, by simpa using hr⟩
      | succ j =>
        simp only [List.getElem?_cons_succ] at hj
        obtain ⟨r2, hr2, hex⟩ := hcorr j t hj
        refine ⟨r2, by simpa using hr2, ?_⟩
        have harith : i + (j + 1) = i + 1 + j := by omega
        rw [harith]
        exact hex

/-- C1: when the stored steps text parses as a JSON list of N step
objects, the POST run yields exactly N StepResults in input order: the
j-th result is exactly the execution of the j-th step and carries 1-based
index j+1, no matter how many steps fail, and the full ordered list is
appended as one new workflow_logs row after all steps execute. -/
theorem workflow_run_one_result_per_step (cfg : Config) (envs : Nat → StepEnv)
    (logs : List (List StepResult)) (steps_json : List Char) (steps : List Json)
    (hparse : json_loads steps_json = some (Json.arr steps))
    (hobj : ∀ s ∈ steps, s.isObj = true) :
    ∃ results,
      workflow_run_post cfg envs logs steps_json = .ok (results, logs ++ [results]) ∧
      results.length = steps.length ∧
      ∀ j s, steps[j]? = some s →
        ∃ r, results[j]? = some r ∧ r.step = j + 1 ∧
          exec_step cfg (envs j) j s = .ok r := by
  obtain ⟨rs, hrun, hlen, hcorr⟩ := run_steps_from_objs cfg envs steps 0 hobj
  refine ⟨rs, ?_, hlen, ?_⟩
  · simp [workflow_run_post, hparse, hrun]
  · intro j s hj
    obtain ⟨r, hr, hex⟩ := hcorr j s hj
    rw [Nat.zero_add] at hex
    exact ⟨r, hr, exec_step_ok_step cfg (envs j) j s r hex, hex⟩

/-- Witness for C1: a concrete one-step workflow (a single empty step
object) runs to one StepResult and one appended log row. -/
theorem workflow_run_one_result_per_step_witness :
    ∃ results,
      workflow_run_post cfg0 envs0 [] "[\x7b\x7d]".toList =
        .ok (results, [] ++ [results]) ∧
      results.length = [Json.obj []].length ∧
      ∀ j s, [Json.obj []][j]? = some s →
        ∃ r, results[j]? = some r ∧ r.step = j + 1 ∧
          exec_step cfg0 (envs0 j) j s = .ok r :=
  workflow_run_one_result_per_step cfg0 envs0 [] _ [Json.obj []] rfl
    (by intro s hs; rw [List.mem_singleton] at hs; subst hs; rfl)

/-- C8: every StepResult an executed step produces has exactly one of its
result and error fields populated: a successful body sets result and
leaves error null, a failed or unknown-type body sets error and leaves
result null. -/
theorem step_result_mutually_exclusive (cfg : Config) (env : StepEnv)
    (i : Nat) (s : Json) (r : StepResult)
    (h : exec_step cfg env i s = .ok r) :
    (r.result.isSome = true ∧ r.error = none) ∨
    (r.result = none ∧ r.error.isSome = true) := by
  cases s with
  | null => exact Except.noConfusion h
  | bool b => exact Except.noConfusion h
  | num l => exact Except.noConfusion h
  | str u => exact Except.noConfusion h
  | arr xs => exact Except.noConfusion h
  | obj kvs =>
    simp only [exec_step] at h
    rcases hb : run_step_body cfg env kvs with e | res <;> rw [hb] at h <;> cases h
    · exact Or.inr ⟨rfl, rfl⟩
    · exact Or.inl ⟨rfl, rfl⟩

/-- Witness for C8: a concrete step with no type key yields a StepResult
with error populated and result null. -/
theorem step_result_mutually_exclusive_witness :
    (((⟨1, none, none, some (keyErrMsg "type".toList)⟩ : StepResult).result.isSome = true ∧
      (⟨1, none, none, some (keyErrMsg "type".toList)⟩ : StepResult).error = none) ∨
     ((⟨1, none, none, some (keyErrMsg "type".toList)⟩ : StepResult).result = none ∧
      (⟨1, none, none, some (keyErrMsg "type".toList)⟩ : StepResult).error.isSome = true)) :=
  step_result_mutually_exclusive cfg0 env0 0 (Json.obj []) _ rfl

/-- C2 counterexample: a step of unknown type yields the error string
Unknown step type with a capital U, which differs from the lowercase
string the claim states. -/
theorem unknown_step_type_capitalised :
    exec_step cfg0 env0 0 (Json.obj [("type".toList, Json.str "bogus".toList)]) =
      .ok ⟨1, some (Json.str "bogus".toList), none, some "Unknown step type".toList⟩ ∧
    "Unknown step type".toList ≠ "unknown step type".toList :=
  ⟨rfl, by decide⟩

/-- C2 amended: for every step object whose declared type is not one of
the four known kinds, the interpreter produces a StepResult with error
equal to the exact string Unknown step type (capital U) and result null,
throws nothing, and the remaining steps of the run still execute. -/
theorem unknown_step_type_isolated (cfg : Config) (envs : Nat → StepEnv)
    (i : Nat) (kvs : List (List Char × Json)) (t : Json) (rest : List Json)
    (ht : objGet? kvs "type".toList = some t)
    (hne : ∀ u, t = Json.str u →
      u ≠ "http_post".toList ∧ u ≠ "ai_generate".toList ∧
      u ≠ "save_to_db".toList ∧ u ≠ "webhook_trigger".toList) :
    run_steps_from cfg envs i (Json.obj kvs :: rest) =
      (run_steps_from cfg envs (i + 1) rest).map
        (fun rs => ⟨i + 1, some t, none, some "Unknown step type".toList⟩ :: rs) := by
  have h1 : t.eqStr "http_post".toList = false :=
    eqStr_false_of_ne t _ (fun u hu => (hne u hu).1)
  have h2 : t.eqStr "ai_generate".toList = false :=
    eqStr_false_of_ne t _ (fun u hu => (hne u hu).2.1)
  have h3 : t.eqStr "save_to_db".toList = false :=
    eqStr_false_of_ne t _ (fun u hu => (hne u hu).2.2.1)
  have h4 : t.eqStr "webhook_trigger".toList = false :=
    eqStr_false_of_ne t _ (fun u hu => (hne u hu).2.2.2)
  have hbody : run_step_body cfg (envs i) kvs = .error "Unknown step type".toList := by
    unfold run_step_body
    rw [ht]
    simp only [step_dispatch]
    rw [h1, h2, h3, h4]
    rfl
  have hexec : exec_step cfg (envs i) i (Json.obj kvs) =
      .ok ⟨i + 1, some t, none, some "Unknown step type".toList⟩ := by
    simp only [exec_step]
    rw [hbody, ht]
  simp only [run_steps_from]
  rw [hexec]

/-- Witness for C2 amended: a one-step run with unknown type bogus records
the capitalised error and the (empty) remainder still executes, giving a
complete result list. -/
theorem unknown_step_type_isolated_witness :
    run_steps_from cfg0 envs0 0
        [Json.obj [("type".toList, Json.str "bogus".toList)]] =
      Except.ok [⟨1, some (Json.str "bogus".toList), none,
        some "Unknown step type".toList⟩] := by
  rw [unknown_step_type_isolated cfg0 envs0 0
    [("type".toList, Json.str "bogus".toList)] (Json.str "bogus".toList) [] rfl
    (by intro u hu; cases hu; exact ⟨by decide, by decide, by decide, by decide⟩)]
  rfl

/-- C3 counterexample: the stored text [5] parses as a one-element list
whose element is not an object; the header line step.get raises
AttributeError outside the per-step try, so the exception is not recorded
in a StepResult and the run aborts with no workflow_logs row appended. -/
theorem non_object_step_aborts_run :
    json_loads "[5]".toList = some (Json.arr [Json.num "5".toList]) ∧
    workflow_run_post cfg0 envs0 [] "[5]".toList =
      .error (attrErrMsg (Json.num "5".toList)) :=
  ⟨rfl, rfl⟩

/-- C3 amended: for every list element that is a JSON object, an exception
raised by the per-step try block is caught and recorded in that result
error field and the remaining steps still execute; an element that is not
an object instead raises at the header line, outside the try, and aborts
the rest of the run. -/
theorem step_exception_isolated (cfg : Config) (envs : Nat → StepEnv) (i : Nat)
    (kvs : List (List Char × Json)) (rest : List Json) (e : List Char)
    (herr : run_step_body cfg (envs i) kvs = .error e) :
    run_steps_from cfg envs i (Json.obj kvs :: rest) =
      (run_steps_from cfg envs (i + 1) rest).map
        (fun rs => ⟨i + 1, objGet? kvs "type".toList, none, some e⟩ :: rs) := by
  have hexec : exec_step cfg (envs i) i (Json.obj kvs) =
      .ok ⟨i + 1, objGet? kvs "type".toList, none, some e⟩ := by
    simp only [exec_step]
    rw [herr]
  simp only [run_steps_from]
  rw [hexec]

/-- Witness for C3 amended: a step object with no type key raises KeyError
inside the try; the exception lands in the error field and the run
completes with a full result list. -/
theorem step_exception_isolated_witness :
    run_steps_from cfg0 envs0 0 [Json.obj []] =
      Except.ok [⟨1, none, none, some (keyErrMsg "type".toList)⟩] := by
  rw [step_exception_isolated cfg0 envs0 0 [] [] (keyErrMsg "type".toList) rfl]
  rfl

/-- C7 counterexample: with the AI backend unconfigured the fallback text
embeds the prompts: the prompts hello and world give different outputs, so
the fallback is not one fixed constant shared by every pair of prompts. -/
theorem ai_demo_depends_on_prompt :
    ai_generate cfg0 (Except.error "x".toList)
        "You are a helpful assistant".toList (Json.str "hello".toList) ≠
      ai_generate cfg0 (Except.error "x".toList)
        "You are a helpful assistant".toList (Json.str "world".toList) := by
  intro h
  have h2 : ("[AI DEMO] You are a helpful assistant | hello...".toList : List Char) =
      "[AI DEMO] You are a helpful assistant | world...".toList := Except.ok.inj h
  exact absurd h2 (by decide)

/-- C7 amended: with the AI backend unconfigured, ai_generate performs no
live call and deterministically returns the demo string built from the
system prompt and the first 80 characters of the user prompt; the output
is byte-for-byte reproducible, identical across HTTP environments and
across prompts that agree on those inputs, but it does depend on the
prompts. -/
theorem ai_demo_deterministic (cfg : Config) (hcfg : cfg.aiConfigured = false)
    (call1 call2 : Except (List Char) (List Char)) (sys u1 u2 : List Char)
    (h80 : u1.take 80 = u2.take 80) :
    ai_generate cfg call1 sys (Json.str u1) =
      Except.ok ("[AI DEMO] ".toList ++ sys ++ " | ".toList ++
        u1.take 80 ++ "...".toList) ∧
    ai_generate cfg call1 sys (Json.str u1) =
      ai_generate cfg call2 sys (Json.str u2) := by
  constructor
  · simp [ai_generate, hcfg, sliceRender80]
  · simp [ai_generate, hcfg, sliceRender80, h80]

/-- Witness for C7 amended: the unconfigured backend returns the concrete
demo string for the prompt hello, identically across two different HTTP
environments. -/
theorem ai_demo_deterministic_witness :
    ai_generate cfg0 (Except.error "x".toList) "sys".toList
        (Json.str "hello".toList) =
      Except.ok ("[AI DEMO] ".toList ++ "sys".toList ++ " | ".toList ++
        "hello".toList.take 80 ++ "...".toList) ∧
    ai_generate cfg0 (Except.error "x".toList) "sys".toList
        (Json.str "hello".toList) =
      ai_generate cfg0 (Except.ok "y".toList) "sys".toList
        (Json.str "hello".toList) :=
  ai_demo_deterministic cfg0 rfl _ _ "sys".toList _ _ rfl

/-- C10: when the AI backend is configured and its HTTP call chain raises,
ai_generate returns the bracketed error text as an ordinary string, so the
ai_generate step stores it in the result field with error null: at the
StepResult interface a backend failure looks exactly like generated
text. -/
theorem ai_backend_failure_in_result_field (cfg : Config) (env : StepEnv)
    (i : Nat) (kvs : List (List Char × Json)) (e : List Char)
    (hcfg : cfg.aiConfigured = true)
    (ht : objGet? kvs "type".toList = some (Json.str "ai_generate".toList))
    (hcall : env.aiCall = Except.error e) :
    exec_step cfg env i (Json.obj kvs) =
      Except.ok ⟨i + 1, some (Json.str "ai_generate".toList),
        some (Json.str ("[AI Error: ".toList ++ e ++ "]".toList)), none⟩ := by
  have h1 : (Json.str "ai_generate".toList).eqStr "http_post".toList = false := by decide
  have h2 : (Json.str "ai_generate".toList).eqStr "ai_generate".toList = true := by decide
  have hai : ai_generate cfg env.aiCall "You are a helpful assistant".toList
      (objGetD kvs "prompt".toList (Json.str [])) =
      .ok ("[AI Error: ".toList ++ e ++ "]".toList) := by
    unfold ai_generate
    rw [hcfg, hcall]
    rfl
  have hbody : run_step_body cfg env kvs =
      .ok (Json.str ("[AI Error: ".toList ++ e ++ "]".toList)) := by
    unfold run_step_body
    rw [ht]
    simp only [step_dispatch]
    rw [h1, h2]
    simp only [Bool.false_eq_true, if_false, if_true]
    rw [hai]
  simp only [exec_step]
  rw [hbody, ht]

/-- Witness for C10: with a concrete configured backend whose call raises
boom, the step records the bracketed AI error in its result field. -/
theorem ai_backend_failure_in_result_field_witness :
    exec_step cfg1 env0 0
        (Json.obj [("type".toList, Json.str "ai_generate".toList)]) =
      Except.ok ⟨1, some (Json.str "ai_generate".toList),
        some (Json.str ("[AI Error: ".toList ++ "boom".toList ++ "]".toList)), none⟩ :=
  ai_backend_failure_in_result_field cfg1 env0 0 _ "boom".toList rfl rfl rfl

end AmirAutomator
